import Mathlib

/-!
Verification of the sample MCP servers (moon-phase, quotes, weather):
a shallow embedding of the Go source into Lean 4, with theorems settling
the specification claims about the transport diagnostics wrapper, the CORS
middleware, the health endpoint, and the tool handlers.
-/

set_option linter.unusedVariables false

namespace SampleMCP

/-! ## Diagnostic response writer (moon server source, responseWriter)

The Go type wraps an http.ResponseWriter and captures status code, headers
and (capped) body for diagnostics.  We model the wrapper state together with
the byte stream forwarded to the underlying connection, bytes as naturals. -/

structure ResponseWriterState where
  statusCode : Int
  capturedHeaders : List (String × String)
  body : List Nat
  isStreaming : Bool
  /-- bytes forwarded to the underlying client connection -/
  sent : List Nat
deriving Repr, DecidableEq

/-- Go http.Header.Get: first value for the key, or the empty string. -/
def headerGet (hs : List (String × String)) (k : String) : String :=
  ((hs.find? (fun p => p.1 == k)).map Prod.snd).getD ""

/-- responseWriter.WriteHeader: records the status code, snapshots the
underlying header map, and marks the response streaming iff the committed
Content-Type equals the event-stream type. -/
def rwWriteHeader (underlying : List (String × String))
    (rw : ResponseWriterState) (code : Int) : ResponseWriterState :=
  { rw with
    statusCode := code
    capturedHeaders := underlying
    isStreaming := headerGet underlying "Content-Type" == "text/event-stream" }

/-- Body capture performed by responseWriter.Write: for non-streaming
responses, appends input bytes to the capture buffer but never lets it
grow past 1024 bytes; for streaming responses, captures nothing. -/
def captureBody (w : ResponseWriterState) (b : List Nat) : List Nat :=
  if w.isStreaming then w.body
  else if w.body.length < 1024 then
    let remaining := 1024 - w.body.length
    if b.length > remaining then w.body ++ b.take remaining
    else w.body ++ b
  else w.body

/-- responseWriter.Write: captures (capped) body bytes via captureBody, and
always forwards the whole input to the underlying writer. -/
def rwWrite (w : ResponseWriterState) (b : List Nat) : ResponseWriterState :=
  { w with body := captureBody w b, sent := w.sent ++ b }

/-- A sequence of Write calls on the wrapper. -/
def rwWriteAll (w : ResponseWriterState) (writes : List (List Nat)) :
    ResponseWriterState :=
  writes.foldl rwWrite w

/-! ## Quotes server: data model and handlers -/

structure Quote where
  Text : String
  Author : String
  Category : String
deriving Repr, DecidableEq

/-- The static local quote table (fallback data of the quotes server). -/
def quotes : List Quote :=
  [⟨"The only way to do great work is to love what you do.", "Steve Jobs", "motivation"⟩,
   ⟨"Innovation distinguishes between a leader and a follower.", "Steve Jobs", "innovation"⟩,
   ⟨"Stay hungry, stay foolish.", "Steve Jobs", "motivation"⟩,
   ⟨"Life is what happens when you\x27re busy making other plans.", "John Lennon", "life"⟩,
   ⟨"The future belongs to those who believe in the beauty of their dreams.", "Eleanor Roosevelt", "motivation"⟩,
   ⟨"It is during our darkest moments that we must focus to see the light.", "Aristotle", "wisdom"⟩,
   ⟨"The only thing we have to fear is fear itself.", "Franklin D. Roosevelt", "courage"⟩,
   ⟨"In the middle of difficulty lies opportunity.", "Albert Einstein", "wisdom"⟩,
   ⟨"Imagination is more important than knowledge.", "Albert Einstein", "wisdom"⟩,
   ⟨"Be the change you wish to see in the world.", "Mahatma Gandhi", "motivation"⟩,
   ⟨"An eye for an eye only ends up making the whole world blind.", "Mahatma Gandhi", "wisdom"⟩,
   ⟨"The best time to plant a tree was 20 years ago. The second best time is now.", "Chinese Proverb", "wisdom"⟩,
   ⟨"Talk is cheap. Show me the code.", "Linus Torvalds", "programming"⟩,
   ⟨"First, solve the problem. Then, write the code.", "John Johnson", "programming"⟩,
   ⟨"Code is like humor. When you have to explain it, it\x27s bad.", "Cory House", "programming"⟩,
   ⟨"Simplicity is the soul of efficiency.", "Austin Freeman", "programming"⟩,
   ⟨"Any fool can write code that a computer can understand. Good programmers write code that humans can understand.", "Martin Fowler", "programming"⟩,
   ⟨"The most damaging phrase in the language is: We\x27ve always done it this way.", "Grace Hopper", "innovation"⟩]

/-- Go strings.ToLower, per character (the source data is ASCII, for which
Go and basic-latin lowercasing agree). -/
def toLowerStr (s : String) : String :=
  String.mk (s.data.map Char.toLower)

/-- rand.Intn(len l) abstracted by an arbitrary natural reduced mod the
list length; returns the element at that index. -/
def pickQuote (l : List Quote) (randIdx : Nat) : Quote :=
  l.getD (randIdx % l.length) ⟨"", "", ""⟩

/-- getRandomQuote: the external API fetch is abstracted as an optional
result (some quote on success, none on failure).  The API quote is returned
only when the fetch succeeded AND no category was supplied; otherwise the
local table is used, filtered by category when one was supplied. -/
def getRandomQuote (api : Option Quote) (category : String) (randIdx : Nat) :
    Except String Quote :=
  match api, category == "" with
  | some q, true => Except.ok q
  | _, _ =>
    if category == "" then
      Except.ok (pickQuote quotes randIdx)
    else
      let filtered := quotes.filter
        (fun q => toLowerStr q.Category == toLowerStr category)
      if filtered.isEmpty then
        Except.error ("no quotes found for category: " ++ category)
      else
        Except.ok (pickQuote filtered randIdx)

/-- Occurrence of one character sequence inside another, at any position. -/
def infixOfAux (sub : List Char) : List Char → Bool
  | [] => sub.isEmpty
  | b :: bs => List.isPrefixOf sub (b :: bs) || infixOfAux sub bs

/-- Go strings.Contains on the character sequences. -/
def containsSub (s sub : String) : Bool :=
  infixOfAux sub.data s.data

/-- The per-quote match test of searchQuotes: the (already lowercased)
query occurs in the lowercased text, author, or category. -/
def matchesQuote (query : String) (q : Quote) : Bool :=
  containsSub (toLowerStr q.Text) query ||
    containsSub (toLowerStr q.Author) query ||
    containsSub (toLowerStr q.Category) query

/-- The limit clamping of searchQuotes: non-positive limits become the
default 5; limits above 10 are capped at 10. -/
def clampLimit (limit : Int) : Int :=
  if (if limit ≤ 0 then 5 else limit) > 10 then 10
  else (if limit ≤ 0 then 5 else limit)

/-- The scan loop of searchQuotes: walk the table in order, append matches,
and stop as soon as the accumulated result reaches the limit. -/
def searchLoop (query : String) (limit : Nat) :
    List Quote → List Quote → List Quote
  | [], acc => acc
  | q :: rest, acc =>
    if matchesQuote query q then
      if limit ≤ (acc ++ [q]).length then acc ++ [q]
      else searchLoop query limit rest (acc ++ [q])
    else searchLoop query limit rest acc

structure SearchQuotesOutput where
  Quotes : List Quote
  Total : Int
deriving Repr, DecidableEq

/-- The result list computed by searchQuotes for a given query and raw
limit argument. -/
def searchResults (query : String) (limit : Int) : List Quote :=
  searchLoop (toLowerStr query) (clampLimit limit).toNat quotes []

/-- searchQuotes: rejects an empty query, otherwise searches the static
table with the clamped limit and reports the results with their count. -/
def searchQuotes (query : String) (limit : Int) :
    Except String SearchQuotesOutput :=
  if query = "" then Except.error "query is required"
  else Except.ok ⟨searchResults query limit, (searchResults query limit).length⟩

/-- Concrete search_quotes output used as an evaluation example: the two
Albert Einstein rows of the static table, in table order. -/
def einsteinSearchOutput : SearchQuotesOutput :=
  ⟨[⟨"In the middle of difficulty lies opportunity.", "Albert Einstein", "wisdom"⟩,
    ⟨"Imagination is more important than knowledge.", "Albert Einstein", "wisdom"⟩], 2⟩

/-! ## Error taxonomy and dispatcher argument decoding

Modelled from the spec: the Dispatcher (protocol method routing and
argument marshaling, spec section 4.2) is implemented by the external MCP
SDK package, which is not part of the repository sources; only its callers
live under src/.  Per the spec, decoding of raw wire arguments into the
handler input shape fails with ErrorKind.InvalidArguments naming the
missing required field, before the handler runs; errors returned by a
handler are wrapped as ErrorKind.HandlerFailed carrying the original
message; declared constraint violations (range, required-ness) are
classified InvalidArguments. -/

inductive ToolFailure where
  | toolNotFound (msg : String)
  | invalidArguments (msg : String)
  | handlerFailed (msg : String)
deriving Repr, DecidableEq

structure SearchQuotesInput where
  query : String
  limit : Int
deriving Repr, DecidableEq

/-- Raw wire arguments for search_quotes before decoding: each field may be
present or absent in the JSON object. -/
structure RawSearchArgs where
  query : Option String
  limit : Option Int
deriving Repr, DecidableEq

/-- Modelled from the spec: the SDK-side decode of raw_arguments into
SearchQuotesInput (spec section 4.2 step 2); a missing required field
yields InvalidArguments naming the field, and the omitted optional limit
takes the zero value, later clamped by the handler. -/
def decodeSearchArgs (raw : RawSearchArgs) :
    Except ToolFailure SearchQuotesInput :=
  match raw.query with
  | none => Except.error
      (ToolFailure.invalidArguments "missing required field: query")
  | some q => Except.ok ⟨q, raw.limit.getD 0⟩

/-- Modelled from the spec: tools/call dispatch for search_quotes — decode,
then invoke the source handler; the boolean reports whether the handler
ran.  Handler errors are wrapped as HandlerFailed with the original
message. -/
def dispatchSearchQuotes (raw : RawSearchArgs) :
    Except ToolFailure SearchQuotesOutput × Bool :=
  match decodeSearchArgs raw with
  | Except.error e => (Except.error e, false)
  | Except.ok input =>
    match searchQuotes input.query input.limit with
    | Except.error msg => (Except.error (ToolFailure.handlerFailed msg), true)
    | Except.ok out => (Except.ok out, true)

/-! ## Weather server: data model and handlers

Coordinates and measurements are float64 in Go; they are modelled as
rationals, over which the threshold comparisons of the source behave
identically. -/

structure GetCurrentWeatherInput where
  latitude : ℚ
  longitude : ℚ
deriving Repr, DecidableEq

structure GetForecastInput where
  latitude : ℚ
  longitude : ℚ
  days : Int
deriving Repr, DecidableEq

/-- The weather-code description table of the weather server. -/
def weatherCodeDescriptions : List (Int × String) :=
  [(0, "Clear sky"), (1, "Mainly clear"), (2, "Partly cloudy"),
   (3, "Overcast"), (45, "Fog"), (48, "Depositing rime fog"),
   (51, "Light drizzle"), (53, "Moderate drizzle"), (55, "Dense drizzle"),
   (61, "Slight rain"), (63, "Moderate rain"), (65, "Heavy rain"),
   (71, "Slight snow"), (73, "Moderate snow"), (75, "Heavy snow"),
   (77, "Snow grains"), (80, "Slight rain showers"),
   (81, "Moderate rain showers"), (82, "Violent rain showers"),
   (85, "Slight snow showers"), (86, "Heavy snow showers"),
   (95, "Thunderstorm"), (96, "Thunderstorm with slight hail"),
   (99, "Thunderstorm with heavy hail")]

def getWeatherDescription (code : Int) : String :=
  (weatherCodeDescriptions.lookup code).getD "Unknown"

structure OpenMeteoCurrent where
  latitude : ℚ
  longitude : ℚ
  temperature : ℚ
  windSpeed : ℚ
  windDirection : Int
  weatherCode : Int
  isDay : Int
  time : String
deriving Repr, DecidableEq

structure CurrentWeatherOutput where
  latitude : ℚ
  longitude : ℚ
  temperature : ℚ
  windSpeed : ℚ
  windDirection : Int
  weatherCode : Int
  description : String
  isDay : Bool
  time : String
deriving Repr, DecidableEq

structure DailyForecast where
  date : String
  tempMax : ℚ
  tempMin : ℚ
  weatherCode : Int
  description : String
  precipitationSum : ℚ
deriving Repr, DecidableEq

structure ForecastOutput where
  latitude : ℚ
  longitude : ℚ
  daily : List DailyForecast
deriving Repr, DecidableEq

/-- getCurrentWeather: validates the coordinate ranges before anything
else; the external Open-Meteo fetch is abstracted as an Except value and
is consulted only after validation passes.  The boolean reports whether
the external API request was made.  Validation failures are classified
InvalidArguments per the spec taxonomy (the classification layer lives in
the SDK, outside src/). -/
def getCurrentWeather (input : GetCurrentWeatherInput)
    (api : Except String OpenMeteoCurrent) :
    Except ToolFailure CurrentWeatherOutput × Bool :=
  if input.latitude < -90 ∨ 90 < input.latitude then
    (Except.error
      (ToolFailure.invalidArguments "latitude must be between -90 and 90"),
     false)
  else if input.longitude < -180 ∨ 180 < input.longitude then
    (Except.error
      (ToolFailure.invalidArguments "longitude must be between -180 and 180"),
     false)
  else
    match api with
    | Except.error e => (Except.error (ToolFailure.handlerFailed e), true)
    | Except.ok resp =>
      (Except.ok
        { latitude := resp.latitude
          longitude := resp.longitude
          temperature := resp.temperature
          windSpeed := resp.windSpeed
          windDirection := resp.windDirection
          weatherCode := resp.weatherCode
          description := getWeatherDescription resp.weatherCode
          isDay := resp.isDay == 1
          time := resp.time },
       true)

/-- The forecast-days clamping of getForecast: non-positive becomes the
default 3, values above 7 are capped at 7. -/
def clampDays (days : Int) : Int :=
  if (if days ≤ 0 then 3 else days) > 7 then 7
  else (if days ≤ 0 then 3 else days)

/-- getForecast: validates the coordinate ranges before anything else; the
external fetch (parameterised by the clamped day count) is abstracted as a
function to an Except value.  The boolean reports whether the external API
request was made. -/
def getForecast (input : GetForecastInput)
    (api : Int → Except String ForecastOutput) :
    Except ToolFailure ForecastOutput × Bool :=
  if input.latitude < -90 ∨ 90 < input.latitude then
    (Except.error
      (ToolFailure.invalidArguments "latitude must be between -90 and 90"),
     false)
  else if input.longitude < -180 ∨ 180 < input.longitude then
    (Except.error
      (ToolFailure.invalidArguments "longitude must be between -180 and 180"),
     false)
  else
    match api (clampDays input.days) with
    | Except.error e => (Except.error (ToolFailure.handlerFailed e), true)
    | Except.ok out => (Except.ok out, true)

/-! ## HTTP surface: CORS middleware and health endpoint -/

structure Request where
  method : String
  path : String
deriving Repr, DecidableEq

/-- One completed HTTP exchange as observed by the client, plus whether the
wrapped (next) handler was invoked. -/
structure HttpExchange where
  status : Int
  headers : List (String × String)
  body : String
  forwarded : Bool
deriving Repr, DecidableEq

/-- Go http.Header.Set: replaces any existing values for the key, else
appends the pair. -/
def setHeader (hs : List (String × String)) (k v : String) :
    List (String × String) :=
  if hs.any (fun p => p.1 == k) then
    hs.map (fun p => if p.1 == k then (k, v) else p)
  else hs ++ [(k, v)]

/-- The four CORS headers set by corsMiddleware on every request. -/
def corsHeaders (hs : List (String × String)) : List (String × String) :=
  setHeader
    (setHeader
      (setHeader
        (setHeader hs "Access-Control-Allow-Origin" "*")
        "Access-Control-Allow-Methods" "GET, POST, OPTIONS")
      "Access-Control-Allow-Headers" "Content-Type, Authorization")
    "Access-Control-Expose-Headers" "Mcp-Session-Id, Content-Type, Cache-Control"

/-- corsMiddleware: sets the CORS headers for every request; for an OPTIONS
request it replies 200 with no body and never calls the wrapped handler;
for any other method it forwards to the wrapped handler with the headers
already set. -/
def corsMiddleware (next : Request → List (String × String) → HttpExchange)
    (r : Request) (hs0 : List (String × String)) : HttpExchange :=
  if r.method == "OPTIONS" then
    { status := 200, headers := corsHeaders hs0, body := "", forwarded := false }
  else
    { next r (corsHeaders hs0) with forwarded := true }

/-- The response of the /health endpoint: the body is modelled as the JSON
object it encodes, as an ordered list of key-value pairs. -/
structure HealthResponse where
  status : Int
  headers : List (String × String)
  bodyObject : List (String × String)
  dispatcherInvolved : Bool
deriving Repr, DecidableEq

/-- The /health handler, common shape of all three servers: optional CORS
headers, Content-Type application/json, implicit 200 on first body write,
and a fixed four-field JSON object built from the server identity the
process was started with.  It is registered directly on the mux and never
touches the MCP dispatcher or any tool handler. -/
def healthHandler (serverName serverVersion : String) (corsEnabled : Bool) :
    HealthResponse :=
  let hs : List (String × String) :=
    if corsEnabled then
      setHeader
        (setHeader
          (setHeader [] "Access-Control-Allow-Origin" "*")
          "Access-Control-Allow-Methods" "GET, POST, OPTIONS")
        "Access-Control-Allow-Headers" "Content-Type, Authorization"
    else []
  { status := 200
    headers := setHeader hs "Content-Type" "application/json"
    bodyObject := [("status", "ok"), ("server", serverName),
                   ("version", serverVersion), ("mcp_endpoint", "/mcp")]
    dispatcherInvolved := false }

/-! ## Moon phase calculation (moon server)

Go float64 arithmetic is modelled over the rationals; the input is the
(signed, fractional) number of days between the requested instant and the
reference new moon of 2000-01-06 18:14 UTC, which is what
t.Sub(knownNewMoon).Hours()/24 computes. -/

def synodicMonth : ℚ := 29.53058867

/-- Go float64-to-int conversion: truncation toward zero. -/
def truncQ (q : ℚ) : ℤ :=
  if q < 0 then ⌈q⌉ else ⌊q⌋

/-- The normalized position in the lunar cycle: fractional part of
daysSince / synodicMonth, shifted into non-negative range. -/
def cyclePosition (daysSince : ℚ) : ℚ :=
  let cp := daysSince / synodicMonth
  let frac := cp - (truncQ cp : ℚ)
  if frac < 0 then frac + 1 else frac

/-- The eight phase-name/emoji pairs of the moon server. -/
def phaseTable : List (String × String) :=
  [("New Moon", "🌑"), ("Waxing Crescent", "🌒"), ("First Quarter", "🌓"),
   ("Waxing Gibbous", "🌔"), ("Full Moon", "🌕"), ("Waning Gibbous", "🌖"),
   ("Last Quarter", "🌗"), ("Waning Crescent", "🌘")]

/-- The illumination fraction computed by calculateMoonPhase (the source's
first illumination formula is dead code, unconditionally overwritten by
this if/else). -/
def illuminationOf (cp : ℚ) : ℚ :=
  if cp < 0.5 then cp * 2 else (1 - cp) * 2

/-- The phase-name/emoji selection switch of calculateMoonPhase. -/
def phaseEmoji (cp : ℚ) : String × String :=
  if cp < 0.0625 then ("New Moon", "🌑")
  else if cp < 0.1875 then ("Waxing Crescent", "🌒")
  else if cp < 0.3125 then ("First Quarter", "🌓")
  else if cp < 0.4375 then ("Waxing Gibbous", "🌔")
  else if cp < 0.5625 then ("Full Moon", "🌕")
  else if cp < 0.6875 then ("Waning Gibbous", "🌖")
  else if cp < 0.8125 then ("Last Quarter", "🌗")
  else if cp < 0.9375 then ("Waning Crescent", "🌘")
  else ("New Moon", "🌑")

/-- calculateMoonPhase: returns (phase name, illumination percentage,
emoji) for the given days-since-reference value. -/
def calculateMoonPhase (daysSince : ℚ) : String × ℚ × String :=
  ((phaseEmoji (cyclePosition daysSince)).1,
   illuminationOf (cyclePosition daysSince) * 100,
   (phaseEmoji (cyclePosition daysSince)).2)

instance {ε α : Type} [DecidableEq ε] [DecidableEq α] :
    DecidableEq (Except ε α) := fun a b =>
  match a, b with
  | Except.error e, Except.error f =>
    if h : e = f then isTrue (by rw [h]) else
      isFalse (fun hc => h (Except.error.inj hc))
  | Except.error _, Except.ok _ => isFalse Except.noConfusion
  | Except.ok _, Except.error _ => isFalse Except.noConfusion
  | Except.ok x, Except.ok y =>
    if h : x = y then isTrue (by rw [h]) else
      isFalse (fun hc => h (Except.ok.inj hc))

/-! ## Helper lemmas -/

theorem captureBody_streaming (w : ResponseWriterState) (b : List Nat)
    (hs : w.isStreaming = true) : captureBody w b = w.body := by
  simp [captureBody, hs]

theorem captureBody_length_le (w : ResponseWriterState) (b : List Nat)
    (hb : w.body.length ≤ 1024) : (captureBody w b).length ≤ 1024 := by
  unfold captureBody
  split
  · exact hb
  · split
    · next hlt =>
      by_cases hgt : b.length > 1024 - w.body.length
      · simp only [hgt, if_true]
        simp
        omega
      · simp only [hgt, if_false]
        simp
        omega
    · exact hb

theorem rwWriteAll_streaming (writes : List (List Nat)) :
    ∀ w : ResponseWriterState, w.isStreaming = true →
      (rwWriteAll w writes).body = w.body ∧
      (rwWriteAll w writes).sent = w.sent ++ writes.flatten := by
  induction writes with
  | nil => intro w hs; simp [rwWriteAll]
  | cons b bs ih =>
    intro w hs
    have hrec := ih (rwWrite w b) (by simpa [rwWrite] using hs)
    unfold rwWriteAll at hrec ⊢
    simp only [List.foldl_cons]
    refine ⟨?_, ?_⟩
    · rw [hrec.1]
      simp [rwWrite, captureBody_streaming w b hs]
    · rw [hrec.2]
      simp [rwWrite]

theorem rwWriteAll_nonstreaming (writes : List (List Nat)) :
    ∀ w : ResponseWriterState, w.isStreaming = false →
      w.body.length ≤ 1024 →
      (rwWriteAll w writes).body.length ≤ 1024 ∧
      (rwWriteAll w writes).sent = w.sent ++ writes.flatten := by
  induction writes with
  | nil => intro w hs hb; simpa [rwWriteAll] using hb
  | cons b bs ih =>
    intro w hs hb
    have hrec := ih (rwWrite w b) (by simpa [rwWrite] using hs)
      (captureBody_length_le w b hb)
    unfold rwWriteAll at hrec ⊢
    simp only [List.foldl_cons]
    refine ⟨by simpa [rwWrite] using hrec.1, ?_⟩
    rw [hrec.2]
    simp [rwWrite]

theorem searchLoop_length_le (query : String) (limit : Nat) :
    ∀ (l acc : List Quote), acc.length < limit →
      (searchLoop query limit l acc).length ≤ limit := by
  intro l
  induction l with
  | nil => intro acc h; unfold searchLoop; omega
  | cons q rest ih =>
    intro acc h
    unfold searchLoop
    split
    · split
      · next hbreak => simp at hbreak ⊢; omega
      · next hcont =>
        exact ih (acc ++ [q]) (by simp at hcont ⊢; omega)
    · exact ih acc h

theorem searchLoop_spec (query : String) (limit : Nat) :
    ∀ (l acc : List Quote), ∃ s : List Quote,
      searchLoop query limit l acc = acc ++ s ∧ s.Sublist l ∧
      ∀ q ∈ s, matchesQuote query q = true := by
  intro l
  induction l with
  | nil =>
    intro acc
    exact ⟨[], by simp [searchLoop]⟩
  | cons q rest ih =>
    intro acc
    unfold searchLoop
    split
    · next hm =>
      split
      · exact ⟨[q], rfl, by simp, by simpa using hm⟩
      · obtain ⟨s, hs1, hs2, hs3⟩ := ih (acc ++ [q])
        refine ⟨q :: s, by simpa using hs1, List.Sublist.cons₂ q hs2, ?_⟩
        intro x hx
        rcases List.mem_cons.mp hx with h | h
        · exact h ▸ hm
        · exact hs3 x h
    · obtain ⟨s, hs1, hs2, hs3⟩ := ih acc
      exact ⟨s, hs1, List.Sublist.cons q hs2, hs3⟩

theorem clampLimit_pos (limit : Int) : 1 ≤ clampLimit limit := by
  unfold clampLimit
  split_ifs <;> omega

theorem cyclePosition_bounds (d : ℚ) :
    0 ≤ cyclePosition d ∧ cyclePosition d < 1 := by
  unfold cyclePosition truncQ
  set cp := d / synodicMonth with hcp
  by_cases hneg : cp < 0
  · simp only [hneg, if_true]
    have hle : cp ≤ (⌈cp⌉ : ℚ) := Int.le_ceil cp
    have hlt : (⌈cp⌉ : ℚ) < cp + 1 := Int.ceil_lt_add_one cp
    by_cases hf : cp - (⌈cp⌉ : ℚ) < 0
    · simp only [hf, if_true]
      constructor <;> linarith
    · simp only [hf, if_false]
      constructor <;> linarith
  · simp only [hneg, if_false]
    have hle : (⌊cp⌋ : ℚ) ≤ cp := Int.floor_le cp
    have hlt : cp < (⌊cp⌋ : ℚ) + 1 := Int.lt_floor_add_one cp
    have hf : ¬ cp - (⌊cp⌋ : ℚ) < 0 := by linarith
    simp only [hf, if_false]
    constructor <;> linarith

theorem phaseEmoji_mem (cp : ℚ) : phaseEmoji cp ∈ phaseTable := by
  unfold phaseEmoji phaseTable
  split_ifs <;> simp

theorem illuminationOf_bounds (cp : ℚ) (h0 : 0 ≤ cp) (h1 : cp < 1) :
    0 ≤ illuminationOf cp ∧ illuminationOf cp ≤ 1 := by
  unfold illuminationOf
  split_ifs with h
  · constructor <;> linarith
  · constructor <;> linarith

/-! ## Claim theorems -/

/-- C1: for a response whose committed Content-Type at the moment
WriteHeader is called is the event-stream type, every subsequent Write
records zero bytes into the capture buffer — the wrapper's body field
stays empty — while every byte sequence passed to Write is forwarded
unchanged, in order, to the underlying client connection. -/
theorem streaming_response_capture_empty
    (hdrs : List (String × String)) (code : Int) (w : ResponseWriterState)
    (hct : headerGet hdrs "Content-Type" = "text/event-stream")
    (hbody : w.body = []) (writes : List (List Nat)) :
    (rwWriteAll (rwWriteHeader hdrs w code) writes).body = [] ∧
    (rwWriteAll (rwWriteHeader hdrs w code) writes).sent =
      w.sent ++ writes.flatten := by
  have hs : (rwWriteHeader hdrs w code).isStreaming = true := by
    simp [rwWriteHeader, hct]
  have h := rwWriteAll_streaming writes (rwWriteHeader hdrs w code) hs
  constructor
  · rw [h.1]
    simpa [rwWriteHeader] using hbody
  · rw [h.2]
    rfl

theorem streaming_response_capture_empty_witness :
    (rwWriteAll (rwWriteHeader [("Content-Type", "text/event-stream")]
        ⟨0, [], [], false, []⟩ 200) [[1, 2], [3]]).body = [] ∧
    (rwWriteAll (rwWriteHeader [("Content-Type", "text/event-stream")]
        ⟨0, [], [], false, []⟩ 200) [[1, 2], [3]]).sent =
      ([] : List Nat) ++ [[1, 2], [3]].flatten :=
  streaming_response_capture_empty [("Content-Type", "text/event-stream")]
    200 ⟨0, [], [], false, []⟩ rfl rfl [[1, 2], [3]]

/-- C2: for a non-streaming response, no sequence of Write calls ever
grows the capture buffer past 1024 bytes, and every Write forwards its
entire input to the underlying ResponseWriter, so the bytes the client
receives are never truncated by the capture helper. -/
theorem nonstreaming_capture_capped (w : ResponseWriterState)
    (hs : w.isStreaming = false) (hb : w.body.length ≤ 1024)
    (writes : List (List Nat)) :
    (rwWriteAll w writes).body.length ≤ 1024 ∧
    (rwWriteAll w writes).sent = w.sent ++ writes.flatten :=
  rwWriteAll_nonstreaming writes w hs hb

theorem nonstreaming_capture_capped_witness :
    (rwWriteAll ⟨0, [], [], false, []⟩ [[7, 8]]).body.length ≤ 1024 ∧
    (rwWriteAll ⟨0, [], [], false, []⟩ [[7, 8]]).sent =
      ([] : List Nat) ++ [[7, 8]].flatten :=
  nonstreaming_capture_capped ⟨0, [], [], false, []⟩ rfl (by decide) [[7, 8]]

/-- C3 counterexample: with a successful API fetch and a non-empty
category filter, getRandomQuote does NOT return the API quote — the
category argument is not ignored on the API-success path; it forces the
local fallback path instead. -/
theorem getRandomQuote_api_with_category_not_api_quote :
    getRandomQuote (some ⟨"An API quote", "API Author", ""⟩)
        "programming" 0 ≠
      Except.ok ⟨"An API quote", "API Author", ""⟩ := by
  decide

/-- C3 amended: when the external API fetch succeeds AND no category was
supplied, the API quote is returned (and the filter is vacuous); when a
non-empty category is supplied, the handler ignores the API result
entirely and serves from the local static table with the filter applied. -/
theorem getRandomQuote_category_forces_fallback (q : Quote)
    (api : Option Quote) (category : String) (randIdx : Nat)
    (hc : category ≠ "") :
    getRandomQuote (some q) "" randIdx = Except.ok q ∧
    getRandomQuote api category randIdx =
      getRandomQuote none category randIdx := by
  have hcb : (category == "") = false := by
    simp [hc]
  constructor
  · rfl
  · cases api with
    | none => rfl
    | some q' => simp only [getRandomQuote, hcb]

theorem getRandomQuote_category_forces_fallback_witness :
    getRandomQuote (some ⟨"q", "a", ""⟩) "" 1 =
      Except.ok ⟨"q", "a", ""⟩ ∧
    getRandomQuote (some ⟨"q", "a", ""⟩) "wisdom" 1 =
      getRandomQuote none "wisdom" 1 :=
  getRandomQuote_category_forces_fallback ⟨"q", "a", ""⟩
    (some ⟨"q", "a", ""⟩) "wisdom" 1 (by decide)

/-- C4: for a non-empty query, a non-positive (or omitted, i.e. zero)
limit behaves identically to supplying limit = 5 and yields at most 5
results; a limit above 10 behaves identically to supplying limit = 10
and yields at most 10 results. -/
theorem searchQuotes_limit_defaulting (query : String) (limit : Int)
    (hq : query ≠ "") :
    (limit ≤ 0 →
      searchQuotes query limit = searchQuotes query 5 ∧
      (searchResults query limit).length ≤ 5) ∧
    (10 < limit →
      searchQuotes query limit = searchQuotes query 10 ∧
      (searchResults query limit).length ≤ 10) := by
  have h5 : clampLimit 5 = 5 := by decide
  have h10 : clampLimit 10 = 10 := by decide
  constructor
  · intro h
    have hcl : clampLimit limit = 5 := by
      simp [clampLimit, h]
    have hres : searchResults query limit = searchResults query 5 := by
      simp only [searchResults, hcl, h5]
    refine ⟨by simp only [searchQuotes, hres], ?_⟩
    have hlen := searchLoop_length_le (toLowerStr query) 5 quotes []
      (by decide)
    simpa [searchResults, hcl] using hlen
  · intro h
    have h0 : ¬ limit ≤ 0 := by omega
    have hcl : clampLimit limit = 10 := by
      simp [clampLimit, h0, h]
    have hres : searchResults query limit = searchResults query 10 := by
      simp only [searchResults, hcl, h10]
    refine ⟨by simp only [searchQuotes, hres], ?_⟩
    have hlen := searchLoop_length_le (toLowerStr query) 10 quotes []
      (by decide)
    simpa [searchResults, hcl] using hlen

theorem searchQuotes_limit_defaulting_witness :
    ((11 : Int) ≤ 0 →
      searchQuotes "code" 11 = searchQuotes "code" 5 ∧
      (searchResults "code" 11).length ≤ 5) ∧
    (10 < (11 : Int) →
      searchQuotes "code" 11 = searchQuotes "code" 10 ∧
      (searchResults "code" 11).length ≤ 10) :=
  searchQuotes_limit_defaulting "code" 11 (by decide)

/-- C5: a tools/call for search_quotes whose raw arguments are missing the
required query field fails with InvalidArguments naming that field, and
the handler never runs (no partial side effects). -/
theorem missing_required_query_rejected (raw : RawSearchArgs)
    (hq : raw.query = none) :
    dispatchSearchQuotes raw =
      (Except.error
        (ToolFailure.invalidArguments "missing required field: query"),
       false) := by
  simp [dispatchSearchQuotes, decodeSearchArgs, hq]

theorem missing_required_query_rejected_witness :
    dispatchSearchQuotes ⟨none, some 7⟩ =
      (Except.error
        (ToolFailure.invalidArguments "missing required field: query"),
       false) :=
  missing_required_query_rejected ⟨none, some 7⟩ rfl

/-- C6: a get_current_weather or get_forecast call whose latitude is
outside [-90, 90] or whose longitude is outside [-180, 180] fails with an
InvalidArguments outcome whose message names the offending coordinate
(latitude checked first), and no external API request is made. -/
theorem out_of_range_coordinates_rejected (lat lon : ℚ) (days : Int)
    (capi : Except String OpenMeteoCurrent)
    (fapi : Int → Except String ForecastOutput)
    (h : (lat < -90 ∨ 90 < lat) ∨ (lon < -180 ∨ 180 < lon)) :
    getCurrentWeather ⟨lat, lon⟩ capi =
      (Except.error (ToolFailure.invalidArguments
        (if lat < -90 ∨ 90 < lat then "latitude must be between -90 and 90"
         else "longitude must be between -180 and 180")), false) ∧
    getForecast ⟨lat, lon, days⟩ fapi =
      (Except.error (ToolFailure.invalidArguments
        (if lat < -90 ∨ 90 < lat then "latitude must be between -90 and 90"
         else "longitude must be between -180 and 180")), false) := by
  by_cases hlat : lat < -90 ∨ 90 < lat
  · constructor <;> simp [getCurrentWeather, getForecast, hlat]
  · have hlon : lon < -180 ∨ 180 < lon := h.resolve_left hlat
    constructor <;> simp [getCurrentWeather, getForecast, hlat, hlon]

theorem out_of_range_coordinates_rejected_witness :
    getCurrentWeather ⟨100, 0⟩ (Except.error "down") =
      (Except.error (ToolFailure.invalidArguments
        (if (100 : ℚ) < -90 ∨ 90 < (100 : ℚ) then
          "latitude must be between -90 and 90"
         else "longitude must be between -180 and 180")), false) ∧
    getForecast ⟨100, 0, 0⟩ (fun _ => Except.error "down") =
      (Except.error (ToolFailure.invalidArguments
        (if (100 : ℚ) < -90 ∨ 90 < (100 : ℚ) then
          "latitude must be between -90 and 90"
         else "longitude must be between -180 and 180")), false) :=
  out_of_range_coordinates_rejected 100 0 0 (Except.error "down")
    (fun _ => Except.error "down") (Or.inl (Or.inr (by norm_num)))

/-- C7: the CORS middleware answers every OPTIONS request with status 200,
empty body and the four required CORS headers (wildcard origin, methods
GET/POST/OPTIONS, headers Content-Type/Authorization, exposed headers
including the Mcp-Session-Id session identifier), and never forwards the
request to the wrapped transport handler, whatever that handler is. -/
theorem preflight_options_short_circuit
    (next : Request → List (String × String) → HttpExchange) (r : Request)
    (hm : r.method = "OPTIONS") :
    corsMiddleware next r [] =
      { status := 200, headers := corsHeaders [], body := "",
        forwarded := false } ∧
    headerGet (corsHeaders []) "Access-Control-Allow-Origin" = "*" ∧
    headerGet (corsHeaders []) "Access-Control-Allow-Methods" =
      "GET, POST, OPTIONS" ∧
    headerGet (corsHeaders []) "Access-Control-Allow-Headers" =
      "Content-Type, Authorization" ∧
    headerGet (corsHeaders []) "Access-Control-Expose-Headers" =
      "Mcp-Session-Id, Content-Type, Cache-Control" := by
  refine ⟨?_, rfl, rfl, rfl, rfl⟩
  simp [corsMiddleware, hm]

theorem preflight_options_short_circuit_witness :
    corsMiddleware (fun _ _ => ⟨404, [], "nope", false⟩)
        ⟨"OPTIONS", "/mcp"⟩ [] =
      { status := 200, headers := corsHeaders [], body := "",
        forwarded := false } ∧
    headerGet (corsHeaders []) "Access-Control-Allow-Origin" = "*" ∧
    headerGet (corsHeaders []) "Access-Control-Allow-Methods" =
      "GET, POST, OPTIONS" ∧
    headerGet (corsHeaders []) "Access-Control-Allow-Headers" =
      "Content-Type, Authorization" ∧
    headerGet (corsHeaders []) "Access-Control-Expose-Headers" =
      "Mcp-Session-Id, Content-Type, Cache-Control" :=
  preflight_options_short_circuit (fun _ _ => ⟨404, [], "nope", false⟩)
    ⟨"OPTIONS", "/mcp"⟩ rfl

/-- C8: the /health handler returns HTTP 200 with Content-Type
application/json and exactly the JSON object with fields status = "ok",
server = the fixed server name, version = the fixed version, and
mcp_endpoint = "/mcp"; no dispatcher or tool handler is involved. -/
theorem health_endpoint_response (name ver : String) (corsEnabled : Bool) :
    (healthHandler name ver corsEnabled).status = 200 ∧
    headerGet (healthHandler name ver corsEnabled).headers "Content-Type" =
      "application/json" ∧
    (healthHandler name ver corsEnabled).bodyObject =
      [("status", "ok"), ("server", name), ("version", ver),
       ("mcp_endpoint", "/mcp")] ∧
    (healthHandler name ver corsEnabled).dispatcherInvolved = false := by
  cases corsEnabled <;> exact ⟨rfl, rfl, rfl, rfl⟩

/-- C9: for every input instant, calculateMoonPhase yields a
phase-name/emoji pair drawn from the fixed eight-entry table, an
illumination percentage within [0, 100], and the internal cycle position
it selects the phase from is normalized into [0, 1). -/
theorem calculateMoonPhase_invariants (d : ℚ) :
    (0 ≤ cyclePosition d ∧ cyclePosition d < 1) ∧
    ((calculateMoonPhase d).1, (calculateMoonPhase d).2.2) ∈ phaseTable ∧
    (0 ≤ (calculateMoonPhase d).2.1 ∧ (calculateMoonPhase d).2.1 ≤ 100) := by
  obtain ⟨h0, h1⟩ := cyclePosition_bounds d
  obtain ⟨hi0, hi1⟩ := illuminationOf_bounds (cyclePosition d) h0 h1
  refine ⟨⟨h0, h1⟩, ?_, ?_, ?_⟩
  · simpa [calculateMoonPhase] using phaseEmoji_mem (cyclePosition d)
  · simp only [calculateMoonPhase]
    linarith
  · simp only [calculateMoonPhase]
    linarith

/-- C10: every successful search_quotes result reports Total equal to the
number of returned quotes; every returned quote matches the lowercased
query in its lowercased text, author, or category; the returned quotes
appear in the same relative order as in the static table (a sublist of
it); and the scan stops at the clamped limit. -/
theorem searchQuotes_result_invariants (query : String) (limit : Int)
    (out : SearchQuotesOutput) (hq : query ≠ "")
    (hout : searchQuotes query limit = Except.ok out) :
    out.Total = out.Quotes.length ∧
    (∀ q ∈ out.Quotes, matchesQuote (toLowerStr query) q = true) ∧
    out.Quotes.Sublist quotes ∧
    out.Quotes.length ≤ (clampLimit limit).toNat := by
  have hofq : out = ⟨searchResults query limit,
      (searchResults query limit).length⟩ := by
    simp [searchQuotes, hq] at hout
    exact hout.symm
  subst hofq
  obtain ⟨s, hs1, hs2, hs3⟩ :=
    searchLoop_spec (toLowerStr query) (clampLimit limit).toNat quotes []
  have hres : searchResults query limit = s := by
    simpa [searchResults] using hs1
  refine ⟨rfl, ?_, ?_, ?_⟩
  · intro q hqmem
    exact hs3 q (by simpa [hres] using hqmem)
  · simpa [hres] using hs2
  · have hpos : 0 < (clampLimit limit).toNat := by
      have := clampLimit_pos limit
      omega
    have hlen := searchLoop_length_le (toLowerStr query)
      (clampLimit limit).toNat quotes [] (by simpa using hpos)
    simpa [searchResults] using hlen

theorem searchQuotes_result_invariants_witness :
    einsteinSearchOutput.Total = einsteinSearchOutput.Quotes.length ∧
    (∀ q ∈ einsteinSearchOutput.Quotes,
      matchesQuote (toLowerStr "einstein") q = true) ∧
    einsteinSearchOutput.Quotes.Sublist quotes ∧
    einsteinSearchOutput.Quotes.length ≤ (clampLimit 5).toNat :=
  searchQuotes_result_invariants "einstein" 5 einsteinSearchOutput
    (by decide) (by decide)

end SampleMCP
